import Mathlib

/-!
Verification of the Conflux streaming-normalization core.

Each definition below is a shallow embedding of a function of the
repository, translated directly from the TypeScript source:

* the cumulative-text delta emitter of the Codex and Claude executors
  (sentTextLengths map, slice of the suffix beyond the recorded length);
* the sequential port probe findAvailablePort of both adapters;
* the shared part normalizer normalizePart with mapItemTypeToBlock;
* the per-backend normalizer strategies (gemini, codex, claude) with
  their toolCallsById correlation tables and handleArtifactUpdate;
* the block accumulator applyNormalizedBlock of useChat, together with
  the terminal-marking and stream-error recovery steps of sendMessage.

Strings that only ever flow through length computations and suffix
slicing are modelled as lists of characters, so that the JavaScript
slice(n) becomes List.drop n; identifiers and contents compared for
equality are modelled as Lean strings.
-/

namespace Conflux

/-! ## Delta emitter (CodexExecutor.execute, ClaudeCodeExecutor.execute)

The executor keeps a map sentTextLengths from item id to the length of
the cumulative text already emitted; on each event it slices off the
suffix beyond the recorded length, and records the new length only when
that suffix is non-empty.  An event with empty text is skipped outright
(the source guards with a truthiness test on item.text). -/

/-- Map from item id to previously emitted length; absent keys read 0,
mirroring the JavaScript sentTextLengths.get(id) with a 0 default. -/
def LengthMap : Type := String → Nat

/-- The initial, empty sentTextLengths map. -/
def emptyLengths : LengthMap := fun _ => 0

/-- Store a recorded length for one item id. -/
def setLength (m : LengthMap) (k : String) (n : Nat) : LengthMap :=
  fun j => if j = k then n else m j

/-- One cumulative-text event: the item id and the full cumulative text. -/
structure CumulEvent where
  id : String
  text : List Char

/-- One step of the executor delta emission: compute the suffix of the
cumulative text beyond the recorded length, emit it when non-empty, and
only then record the new cumulative length.  Mirrors the agent_message /
reasoning branch of CodexExecutor.execute. -/
def emitDelta (m : LengthMap) (e : CumulEvent) : LengthMap × List (List Char) :=
  if e.text = [] then (m, [])
  else
    let prevLength := m e.id
    let deltaText := e.text.drop prevLength
    if deltaText = [] then (m, [])
    else (setLength m e.id e.text.length, [deltaText])

/-- Run the delta emitter over a whole event sequence, collecting every
emitted delta in order. -/
def runDeltaEmitter (m : LengthMap) : List CumulEvent → LengthMap × List (List Char)
  | [] => (m, [])
  | e :: rest =>
    let step := emitDelta m e
    let tail := runDeltaEmitter step.1 rest
    (tail.1, step.2 ++ tail.2)

/-- Text b is a cumulative extension of text a: a is an initial segment
of b. -/
def ext (a b : List Char) : Prop := b.take a.length = a

instance (a b : List Char) : Decidable (ext a b) :=
  inferInstanceAs (Decidable (b.take a.length = a))

theorem ext_refl (a : List Char) : ext a a := by
  simp [ext]

theorem ext_length_le {a b : List Char} (h : ext a b) : a.length ≤ b.length := by
  have := congrArg List.length h
  simp [List.length_take] at this
  omega

theorem ext_trans {a b c : List Char} (hab : ext a b) (hbc : ext b c) : ext a c := by
  unfold ext at *
  have hle : a.length ≤ b.length := ext_length_le hab
  calc c.take a.length = (c.take b.length).take a.length := by
        rw [List.take_take, Nat.min_eq_left hle]
    _ = b.take a.length := by rw [hbc]
    _ = a := hab

/-- Along a chain of cumulative extensions, the head is an initial
segment of the last element. -/
theorem ext_chain_getLastD (t : List Char) (rest : List (List Char))
    (h : List.Chain' ext (t :: rest)) : ext t (rest.getLastD t) := by
  induction rest generalizing t with
  | nil => exact ext_refl t
  | cons u rest ih =>
    rw [List.chain'_cons] at h
    rw [List.getLastD_cons]
    exact ext_trans h.1 (ih u h.2)

theorem drop_of_ext_split {t u : List Char} (n : Nat) (hn : n ≤ t.length)
    (h : ext t u) : u.drop n = t.drop n ++ u.drop t.length := by
  conv_lhs => rw [← List.take_append_drop t.length u, h]
  rw [List.drop_append_eq_append_drop]
  have : n - t.length = 0 := by omega
  rw [this, List.drop_zero]

/-- When the cumulative text does not reach beyond the recorded emitted
length, the emitter produces nothing and leaves the map untouched. -/
theorem emitDelta_no_extend (m : LengthMap) (e : CumulEvent)
    (h : e.text.length ≤ m e.id) : emitDelta m e = (m, []) := by
  unfold emitDelta
  by_cases he : e.text = []
  · simp [he]
  · simp [he, List.drop_eq_nil_of_le h]

/-- When the cumulative text strictly extends the recorded length, the
emitter emits exactly the new suffix and records the new length. -/
theorem emitDelta_extend (m : LengthMap) (e : CumulEvent)
    (h : m e.id < e.text.length) :
    emitDelta m e = (setLength m e.id e.text.length, [e.text.drop (m e.id)]) := by
  have hne : e.text ≠ [] := by
    intro hh
    rw [hh] at h
    simp at h
  have hd : e.text.drop (m e.id) ≠ [] := by
    intro hh
    have := congrArg List.length hh
    simp [List.length_drop] at this
    omega
  unfold emitDelta
  simp [hne, hd]

/-- Core induction for the delta invariant: starting from a map that
records exactly the length of the text emitted so far, running the
emitter over a chain of cumulative extensions emits exactly the suffix
of the final text beyond the already-emitted part. -/
theorem runDeltaEmitter_cumulative (i : String) (ts : List (List Char)) :
    ∀ (cur : List Char) (m : LengthMap), m i = cur.length →
      List.Chain' ext (cur :: ts) →
      ((runDeltaEmitter m (ts.map (fun t => ⟨i, t⟩))).2).flatten
        = (ts.getLastD cur).drop cur.length := by
  induction ts with
  | nil =>
    intro cur m _ _
    simp [runDeltaEmitter, List.drop_length]
  | cons t rest ih =>
    intro cur m hm hch
    rw [List.chain'_cons] at hch
    obtain ⟨h1, h2⟩ := hch
    have hcle : cur.length ≤ t.length := ext_length_le h1
    rw [List.map_cons, List.getLastD_cons]
    show ((emitDelta m ⟨i, t⟩).2
        ++ (runDeltaEmitter (emitDelta m ⟨i, t⟩).1 (rest.map (fun t => ⟨i, t⟩))).2).flatten
      = (rest.getLastD t).drop cur.length
    by_cases hcase : t.length ≤ m i
    · have hlen : cur.length = t.length := by omega
      have hcur : cur = t := by
        have := h1
        unfold ext at this
        rw [hlen] at this
        simpa [List.take_length] using this.symm
      rw [emitDelta_no_extend m ⟨i, t⟩ hcase]
      have := ih t m (by rw [hm, hlen]) h2
      simpa [hcur] using this
    · have hlt : m i < t.length := by omega
      rw [emitDelta_extend m ⟨i, t⟩ hlt]
      have hset : setLength m i t.length i = t.length := by simp [setLength]
      have htail := ih t (setLength m i t.length) hset h2
      have hext : ext t (rest.getLastD t) := ext_chain_getLastD t rest h2
      simp only [List.flatten_append, List.flatten_cons, List.flatten_nil,
        List.append_nil]
      rw [htail, hm]
      exact (drop_of_ext_split cur.length hcle hext).symm

/-- C1: for a sequence of cumulative-text events with one item id whose
texts form a chain of cumulative extensions (each text extends the
previous one, so lengths are non-decreasing), the concatenation of all
emitted deltas equals the final cumulative text exactly: no duplicated
and no dropped characters. -/
theorem delta_invariant (i : String) (ts : List (List Char))
    (h : List.Chain' ext ts) :
    ((runDeltaEmitter emptyLengths (ts.map (fun t => ⟨i, t⟩))).2).flatten
      = ts.getLastD [] := by
  have hch : List.Chain' ext ([] :: ts) := by
    cases ts with
    | nil => simp
    | cons t rest =>
      rw [List.chain'_cons]
      exact ⟨by simp [ext], h⟩
  simpa using runDeltaEmitter_cumulative i ts [] emptyLengths rfl hch

/-- Witness for C1 at a concrete three-event cumulative sequence. -/
theorem delta_invariant_witness :
    List.Chain' ext [['a'], ['a', 'b'], ['a', 'b', 'c']]
      ∧ ((runDeltaEmitter emptyLengths
            ([['a'], ['a', 'b'], ['a', 'b', 'c']].map
              (fun t => ⟨"item1", t⟩))).2).flatten
          = [['a'], ['a', 'b'], ['a', 'b', 'c']].getLastD [] :=
  ⟨by rw [List.chain'_cons, List.chain'_cons]
      exact ⟨by decide, by decide, List.chain'_singleton _⟩,
   delta_invariant "item1" [['a'], ['a', 'b'], ['a', 'b', 'c']]
     (by rw [List.chain'_cons, List.chain'_cons]
         exact ⟨by decide, by decide, List.chain'_singleton _⟩)⟩

/-- C2: an event whose cumulative text does not extend beyond the
previously emitted length for its item id produces no emission at all,
and the recorded lengths are left unchanged. -/
theorem no_emission_without_extension (m : LengthMap) (e : CumulEvent)
    (h : e.text.length ≤ m e.id) : emitDelta m e = (m, []) :=
  emitDelta_no_extend m e h

/-- Witness for C2: a shorter resend (recorded length 2, new cumulative
text of length 1) emits nothing. -/
theorem no_emission_without_extension_witness :
    (CumulEvent.mk "item1" ['a']).text.length
        ≤ setLength emptyLengths "item1" 2 (CumulEvent.mk "item1" ['a']).id
      ∧ emitDelta (setLength emptyLengths "item1" 2) (CumulEvent.mk "item1" ['a'])
          = (setLength emptyLengths "item1" 2, []) :=
  ⟨by decide, no_emission_without_extension _ _ (by decide)⟩

/-! ## Port probing (ClaudeCodeAdapter.findAvailablePort,
CodexAdapter.findAvailablePort)

Both adapters probe ports sequentially: try to listen on startPort; on
success resolve startPort, on error retry with startPort + 1.  The
environment is modelled as a predicate telling which ports are busy
(listen errors), and the unbounded recursion of the source is given an
explicit fuel: with enough fuel to reach a free port the function
behaves exactly like the unbounded probe, and the theorems quantify the
fuel accordingly. -/

/-- Sequential port probe: return startPort when it is not busy,
otherwise advance to startPort + 1.  Fuel bounds the recursion depth. -/
def findAvailablePort (busy : Nat → Bool) : Nat → Nat → Option Nat
  | 0, _ => none
  | fuel + 1, startPort =>
    if busy startPort then findAvailablePort busy fuel (startPort + 1)
    else some startPort

/-- The probe returns the least non-busy port at or above the starting
port, provided some port within fuel reach is free. -/
theorem findAvailablePort_spec (busy : Nat → Bool) :
    ∀ fuel startPort : Nat, (∃ k, k < fuel ∧ busy (startPort + k) = false) →
      ∃ p, findAvailablePort busy fuel startPort = some p
        ∧ busy p = false ∧ startPort ≤ p
        ∧ ∀ r, startPort ≤ r → r < p → busy r = true := by
  intro fuel
  induction fuel with
  | zero =>
    intro startPort h
    obtain ⟨k, hk, _⟩ := h
    omega
  | succ fuel ih =>
    intro startPort h
    by_cases hb : busy startPort = true
    · obtain ⟨k, hk, hfree⟩ := h
      have hk0 : k ≠ 0 := by
        intro hk0
        rw [hk0] at hfree
        simp at hfree
        rw [hfree] at hb
        exact Bool.false_ne_true hb
      obtain ⟨k', rfl⟩ : ∃ k', k = k' + 1 := ⟨k - 1, by omega⟩
      obtain ⟨p, heq, hfreep, hle, hmin⟩ :=
        ih (startPort + 1) ⟨k', by omega, by rw [show startPort + 1 + k' = startPort + (k' + 1) by omega]; exact hfree⟩
      refine ⟨p, ?_, hfreep, by omega, ?_⟩
      · unfold findAvailablePort
        rw [if_pos hb]
        exact heq
      · intro r hr1 hr2
        rcases Nat.eq_or_lt_of_le hr1 with hr | hr
        · rw [← hr]; exact hb
        · exact hmin r (by omega) hr2
    · refine ⟨startPort, ?_, by simpa using hb, Nat.le_refl _, by omega⟩
      unfold findAvailablePort
      rw [if_neg hb]

/-- C8: the port probe advances sequentially from the default port and
returns the first unused one; when two adapters contend for the same
default port d (the first one binds d, making it busy for the second),
the first resolves exactly to d and the second resolves with no error to
a strictly higher port, the first port above d that is free. -/
theorem findAvailablePort_contention (busy : Nat → Bool) (fuel d q : Nat)
    (hd : busy d = false) (hdq : d < q) (hq : busy q = false)
    (hfuel : q < d + fuel) :
    findAvailablePort busy fuel d = some d
      ∧ ∃ p, findAvailablePort (fun r => decide (r = d) || busy r) fuel d = some p
          ∧ d < p ∧ busy p = false
          ∧ ∀ r, d < r → r < p → busy r = true := by
  constructor
  · obtain ⟨p, heq, hfreep, hle, hmin⟩ :=
      findAvailablePort_spec busy fuel d ⟨0, by omega, by simpa using hd⟩
    have hpd : p = d := by
      by_contra hne
      have hbd : busy d = true := hmin d (Nat.le_refl d) (by omega)
      rw [hd] at hbd
      exact Bool.false_ne_true hbd
    rw [hpd] at heq
    exact heq
  · have hq2 : (fun r => decide (r = d) || busy r) (d + (q - d)) = false := by
      have : d + (q - d) = q := by omega
      rw [this]
      simp only [Bool.or_eq_false_iff, decide_eq_false_iff_not]
      exact ⟨by omega, hq⟩
    obtain ⟨p, heq, hfreep, hle, hmin⟩ :=
      findAvailablePort_spec (fun r => decide (r = d) || busy r) fuel d
        ⟨q - d, by omega, hq2⟩
    simp only [Bool.or_eq_false_iff, decide_eq_false_iff_not] at hfreep
    refine ⟨p, heq, by omega, hfreep.2, ?_⟩
    intro r hr1 hr2
    have := hmin r (by omega) hr2
    simp only [Bool.or_eq_true, decide_eq_true_eq] at this
    rcases this with h | h
    · omega
    · exact h

/-- Witness for C8: with only port 3000 initially free among the two
lowest candidates, the first adapter resolves to 3000 and the second to
3001. -/
theorem findAvailablePort_contention_witness :
    ((fun _ : Nat => false) 3000 = false ∧ 3000 < 3001
        ∧ (fun _ : Nat => false) 3001 = false ∧ 3001 < 3000 + 10)
      ∧ findAvailablePort (fun _ => false) 10 3000 = some 3000
      ∧ ∃ p, findAvailablePort (fun r => decide (r = 3000) || (fun _ : Nat => false) r) 10 3000 = some p
          ∧ 3000 < p ∧ (fun _ : Nat => false) p = false
          ∧ ∀ r, 3000 < r → r < p → (fun _ : Nat => false) r = true :=
  ⟨⟨by decide, by decide, by decide, by decide⟩,
    findAvailablePort_contention (fun _ => false) 10 3000 3001
      (by decide) (by decide) (by decide) (by decide)⟩

/-! ## Canonical data model (blocks.ts, normalizers/types.ts)

Artifact parts are modelled by the shape the code traverses: a kind tag
and, for text parts, the text.  Block metadata is the record of all keys
the program ever reads or writes; absent keys are none, mirroring
undefined.  JavaScript truthiness on optional strings (undefined or the
empty string are falsy) is captured by strTruthy. -/

/-- The canonical block types of MessageBlockType in blocks.ts. -/
inductive MessageBlockType where
  | text
  | reasoning
  | tool_call
  | file_change
  | command_execution
  | web_search
  | todo_list
  | error
  | artifact
deriving DecidableEq, Repr

/-- One entry of a todo_list metadata payload. -/
structure TodoItem where
  text : String
  completed : Bool
deriving DecidableEq, Repr

/-- One entry of a file_change metadata payload. -/
structure FileChange where
  path : String
  kind : String
deriving DecidableEq, Repr

/-- A part of an artifact payload, reduced to the shape the code
traverses: the kind tag, and the text for text parts. -/
inductive APart where
  | text (text : String)
  | file
  | data
deriving DecidableEq, Repr

/-- The artifact payload carried by artifact-update events and stored in
block metadata. -/
structure ArtifactPayload where
  artifactId : String
  name : Option String
  parts : List APart
deriving DecidableEq, Repr

/-- Block / part metadata: every key the program reads or writes of the
untyped Record of the source; a missing key is none.  Unknown-typed
payloads (arguments, result, input, output, error) are carried opaquely
as strings. -/
structure Metadata where
  callId : Option String := none
  toolName : Option String := none
  status : Option String := none
  server : Option String := none
  tool : Option String := none
  command : Option String := none
  query : Option String := none
  arguments : Option String := none
  result : Option String := none
  input : Option String := none
  output : Option String := none
  error : Option String := none
  exitCode : Option Int := none
  elapsedSeconds : Option Int := none
  items : Option (List TodoItem) := none
  changes : Option (List FileChange) := none
  itemType : Option String := none
  artifact : Option ArtifactPayload := none
deriving DecidableEq, Repr

/-- The empty metadata record. -/
def emptyMetadata : Metadata := {}

/-- Whether the metadata record has no key at all; mirrors the check
Object.keys(blockMetadata).length greater than zero in the source. -/
def Metadata.isEmpty (m : Metadata) : Bool :=
  m.callId = none ∧ m.toolName = none ∧ m.status = none ∧ m.server = none
    ∧ m.tool = none ∧ m.command = none ∧ m.query = none ∧ m.arguments = none
    ∧ m.result = none ∧ m.input = none ∧ m.output = none ∧ m.error = none
    ∧ m.exitCode = none ∧ m.elapsedSeconds = none ∧ m.items = none
    ∧ m.changes = none ∧ m.itemType = none ∧ m.artifact = none

/-- JavaScript truthiness of an optional string: undefined and the empty
string are falsy. -/
def strTruthy : Option String → Bool
  | none => false
  | some s => s ≠ ""

/-- JavaScript a or-else b on optional strings: keep a when truthy,
otherwise take b as it is. -/
def jsOrStr (a b : Option String) : Option String :=
  if strTruthy a then a else b

/-- Merge one defined incoming value over an existing one: mergeDefined
in useChat.ts assigns a key only when the incoming value is defined. -/
def mergeField {α : Type} (incoming existing : Option α) : Option α :=
  match incoming with
  | some v => some v
  | none => existing

/-- The payload of a data part, with the keys normalizeDataPayload
reads; stringified models JSON.stringify of the whole record, used as a
text fallback. -/
structure DataPayload where
  itemType : Option String := none
  metadata : Option Metadata := none
  text : Option String := none
  stringified : String := ""
deriving DecidableEq, Repr

/-- A message part: text, file, or data, as in the a2a sdk Part union. -/
inductive Part where
  | text (text : String) (metadata : Option Metadata)
  | file (uri : String)
  | data (payload : DataPayload)
deriving DecidableEq, Repr

/-- The kind discriminator string of a part. -/
def Part.kind : Part → String
  | .text _ _ => "text"
  | .file _ => "file"
  | .data _ => "data"

/-- A normalized block: either text-like with a delta text, optional
metadata and an append-to-command flag, or an artifact passthrough. -/
inductive NormalizedBlock where
  | textLike (blockType : MessageBlockType) (text : String)
      (metadata : Option Metadata) (appendToCommand : Bool)
  | artifact (artifact : ArtifactPayload) (append : Bool)
deriving DecidableEq, Repr

/-! ## Shared normalizer (normalizers/common.ts) -/

/-- mapItemTypeToBlock of common.ts: the fixed table from the generic
itemType tag to a canonical block type, together with the
appendToCommand flag for command output and status tags; anything
unrecognized maps to text. -/
def mapItemTypeToBlock : Option String → MessageBlockType × Bool
  | some "reasoning" => (.reasoning, false)
  | some "tool_call" => (.tool_call, false)
  | some "mcp_tool_call" => (.tool_call, false)
  | some "mcp_tool_result" => (.tool_call, false)
  | some "mcp_tool_error" => (.tool_call, false)
  | some "file_change" => (.file_change, false)
  | some "command_execution" => (.command_execution, false)
  | some "command_output" => (.command_execution, true)
  | some "command_status" => (.command_execution, true)
  | some "web_search" => (.web_search, false)
  | some "todo_list" => (.todo_list, false)
  | some "error" => (.error, false)
  | _ => (.text, false)

/-- normalizeDataPayload of common.ts: extract itemType, metadata and
text of a data record, falling back to the stringified record when no
text string is present. -/
def normalizeDataPayload (d : DataPayload) :
    Option String × Option Metadata × String :=
  (d.itemType, d.metadata, d.text.getD d.stringified)

/-- normalizePart of common.ts: a text part maps through
mapItemTypeToBlock on the itemType in its metadata; a data part maps
through normalizeDataPayload; every other kind yields null. -/
def normalizePart : Part → Option NormalizedBlock
  | .text t md =>
    let mapped := mapItemTypeToBlock (md.bind Metadata.itemType)
    some (.textLike mapped.1 t md mapped.2)
  | .data d =>
    let payload := normalizeDataPayload d
    let mapped := mapItemTypeToBlock payload.1
    some (.textLike mapped.1 payload.2.2 payload.2.1 mapped.2)
  | .file _ => none

/-- C10: normalizePart yields null exactly for parts whose kind is
neither text nor data (in particular file parts), which are therefore
silently dropped; every text or data part yields exactly one block. -/
theorem normalizePart_drops_only_unknown_kinds (p : Part) :
    (normalizePart p = none ↔ (p.kind ≠ "text" ∧ p.kind ≠ "data"))
      ∧ (p.kind = "file" → normalizePart p = none)
      ∧ ((p.kind = "text" ∨ p.kind = "data") → (normalizePart p).isSome) := by
  cases p with
  | text t md => simp [normalizePart, Part.kind]
  | file u => simp [normalizePart, Part.kind]
  | data d => simp [normalizePart, Part.kind]

/-! ## Backend normalizer strategies (normalizers/gemini.ts, codex.ts,
claude.ts)

Each strategy owns a per-conversation correlation table toolCallsById
(gemini and codex; the claude strategy has none).  The table is modelled
as an association list where set prepends, so lookup finds the newest
binding, matching the JavaScript Map.  The artifact-update handler
matches artifact ids of the shape tool-(id)-output with the greedy
anchored regular expression of the source. -/

/-- Recorded classification for one tool call id. -/
structure ToolInfo where
  toolName : String
  blockType : MessageBlockType
deriving DecidableEq, Repr

/-- The per-conversation correlation table toolCallsById. -/
def ToolTable : Type := List (String × ToolInfo)

instance : DecidableEq ToolTable :=
  inferInstanceAs (DecidableEq (List (String × ToolInfo)))

/-- Lookup in the correlation table, newest binding first. -/
def ToolTable.get (m : ToolTable) (k : String) : Option ToolInfo :=
  (m.find? (fun e => e.1 = k)).map (fun e => e.2)

/-- Store a binding in the correlation table. -/
def ToolTable.set (m : ToolTable) (k : String) (v : ToolInfo) : ToolTable :=
  (k, v) :: m

/-- The tool-call data record carried by tool-call-update and
tool-call-confirmation parts, with every key some strategy reads. -/
structure ToolData where
  requestName : Option String := none
  requestCallId : Option String := none
  status : Option String := none
  command : Option String := none
  exitCode : Option Int := none
  changes : Option (List FileChange) := none
  query : Option String := none
  items : Option (List TodoItem) := none
  server : Option String := none
  tool : Option String := none
  arguments : Option String := none
  result : Option String := none
  error : Option String := none
  input : Option String := none
  output : Option String := none
  elapsedSeconds : Option Int := none
  text : Option String := none
  description : Option String := none
deriving DecidableEq, Repr

/-- An artifact-update event: the artifact payload and the append flag. -/
structure ArtifactEvent where
  artifact : ArtifactPayload
  append : Bool
deriving DecidableEq, Repr

/-- Match an artifact id against the anchored greedy pattern
tool-(.+)-output and extract the call id in the middle. -/
def parseToolOutputId (s : String) : Option String :=
  let cs := s.toList
  if cs.take 5 = "tool-".toList ∧ 12 < cs.length
      ∧ cs.drop (cs.length - 7) = "-output".toList then
    some (String.mk ((cs.drop 5).take (cs.length - 12)))
  else
    none

/-- Concatenation of the texts of the text parts of an artifact, as
computed by the handleArtifactUpdate overrides. -/
def artifactTextParts (parts : List APart) : String :=
  String.join (parts.filterMap (fun p =>
    match p with
    | .text t => some t
    | _ => none))

/-- ASCII lowercasing of a string, modelling the toLowerCase calls of
the source on tool and status names; mapped characterwise so that it
computes in the kernel. -/
def toLowerStr (s : String) : String := String.mk (s.toList.map Char.toLower)

/-- JavaScript String.includes: sub occurs contiguously inside s. -/
def listIncludes (sub s : List Char) : Bool :=
  (List.range (s.length + 1)).any (fun i => (s.drop i).take sub.length = sub)

/-- The shared artifact passthrough of createCommonNormalizer: one
artifact block carrying the payload and the append flag unchanged. -/
def commonHandleArtifactUpdate (ev : ArtifactEvent) : List NormalizedBlock :=
  [.artifact ev.artifact ev.append]

namespace Gemini

/-- mapToolNameToBlockType of gemini.ts: case-insensitive lookup from
the tool name to a canonical block type. -/
def mapToolNameToBlockType (toolName : String) : MessageBlockType :=
  let normalized := toLowerStr toolName
  if normalized ∈ ["bash", "shell", "exec", "command", "run"] then .command_execution
  else if listIncludes "search".toList normalized.toList then .web_search
  else if listIncludes "todo".toList normalized.toList then .todo_list
  else if normalized ∈ ["write", "edit", "replace", "create_file", "apply_patch"] then .file_change
  else .tool_call

/-- normalizeToolCallData of gemini.ts: classify the tool name, record
(toolName, blockType) in toolCallsById when the request carries a
callId, and emit a summary tool block. -/
def normalizeToolCallData (data : ToolData) (toolCallsById : ToolTable) :
    ToolTable × NormalizedBlock :=
  let toolName := (jsOrStr data.requestName (some "tool")).getD "tool"
  let status := data.status
  let summary := if strTruthy status then toolName ++ " (" ++ status.getD "" ++ ")" else toolName
  let blockType := mapToolNameToBlockType toolName
  let table :=
    match data.requestCallId with
    | some cid => if cid ≠ "" then toolCallsById.set cid ⟨toolName, blockType⟩ else toolCallsById
    | none => toolCallsById
  let metadata : Metadata :=
    { toolName := some toolName, status := status, callId := data.requestCallId,
      command := if blockType = .command_execution then some toolName else none }
  (table, .textLike blockType summary (some metadata) false)

/-- handleArtifactUpdate of gemini.ts: when the artifact id matches
tool-(id)-output, the text is non-empty and the id was recorded, append
the text to the recorded command block or correlate it to the tool block
by callId; otherwise fall through to the shared artifact passthrough. -/
def handleArtifactUpdate (toolCallsById : ToolTable) (ev : ArtifactEvent) :
    List NormalizedBlock :=
  let textParts := artifactTextParts ev.artifact.parts
  match parseToolOutputId ev.artifact.artifactId with
  | some callId =>
    if textParts ≠ "" then
      match toolCallsById.get callId with
      | some toolInfo =>
        if toolInfo.blockType = .command_execution then
          [.textLike .command_execution textParts
            (some { command := some toolInfo.toolName, callId := some callId }) true]
        else
          [.textLike .tool_call textParts
            (some { toolName := some toolInfo.toolName, callId := some callId }) false]
      | none => commonHandleArtifactUpdate ev
    else commonHandleArtifactUpdate ev
  | none => commonHandleArtifactUpdate ev

end Gemini

namespace Codex

/-- mapToolNameToBlockType of codex.ts: exact-name lookup, defaulting to
tool_call. -/
def mapToolNameToBlockType (toolName : String) : MessageBlockType :=
  let normalized := toLowerStr toolName
  if normalized = "command_execution" then .command_execution
  else if normalized = "file_change" then .file_change
  else if normalized = "web_search" then .web_search
  else if normalized = "todo_list" then .todo_list
  else if normalized = "mcp_tool_call" then .tool_call
  else .tool_call

/-- normalizeToolCallData of codex.ts: classify, record the call id,
and emit the block shape of the classified type. -/
def normalizeToolCallData (data : ToolData) (toolCallsById : ToolTable) :
    ToolTable × NormalizedBlock :=
  let toolName := (jsOrStr data.requestName (some "tool")).getD "tool"
  let blockType := mapToolNameToBlockType toolName
  let callId := data.requestCallId
  let summary := if strTruthy data.status then toolName ++ " (" ++ data.status.getD "" ++ ")" else toolName
  let table :=
    match callId with
    | some cid => if cid ≠ "" then toolCallsById.set cid ⟨toolName, blockType⟩ else toolCallsById
    | none => toolCallsById
  let block : NormalizedBlock :=
    if blockType = .command_execution then
      .textLike blockType ""
        (some { command := jsOrStr data.command (some toolName),
                status := data.status, exitCode := data.exitCode, callId := callId }) false
    else if blockType = .file_change then
      .textLike blockType ""
        (some { changes := data.changes, status := data.status, callId := callId }) false
    else if blockType = .web_search then
      .textLike blockType ""
        (some { query := data.query, status := data.status, callId := callId }) false
    else if blockType = .todo_list then
      .textLike blockType ""
        (some { items := data.items, status := data.status, callId := callId }) false
    else
      .textLike .tool_call summary
        (some { status := data.status, callId := callId,
                toolName := if data.server.isSome ∧ data.tool.isSome
                  then some ((data.server.getD "") ++ "/" ++ (data.tool.getD ""))
                  else some toolName,
                server := data.server, tool := data.tool,
                arguments := data.arguments, result := data.result,
                input := data.arguments, output := data.result,
                error := data.error }) false
  (table, block)

/-- handleArtifactUpdate of codex.ts: append the text to the recorded
command block for a matching recorded command_execution; every other
case falls through to the shared artifact passthrough. -/
def handleArtifactUpdate (toolCallsById : ToolTable) (ev : ArtifactEvent) :
    List NormalizedBlock :=
  let textParts := artifactTextParts ev.artifact.parts
  match parseToolOutputId ev.artifact.artifactId with
  | some callId =>
    if textParts ≠ "" then
      match toolCallsById.get callId with
      | some toolInfo =>
        if toolInfo.blockType = .command_execution then
          [.textLike .command_execution textParts
            (some { command := some toolInfo.toolName, callId := some callId }) true]
        else commonHandleArtifactUpdate ev
      | none => commonHandleArtifactUpdate ev
    else commonHandleArtifactUpdate ev
  | none => commonHandleArtifactUpdate ev

end Codex

namespace Claude

/-- mapToolNameToBlockType of claude.ts. -/
def mapToolNameToBlockType (toolName : String) : MessageBlockType :=
  let normalized := toLowerStr toolName
  if normalized = "bash" ∨ normalized = "shell" ∨ normalized = "command" then .command_execution
  else if listIncludes "search".toList normalized.toList
      ∨ listIncludes "web".toList normalized.toList then .web_search
  else if normalized ∈ ["write", "edit", "replace", "apply_patch"] then .file_change
  else if listIncludes "todo".toList normalized.toList then .todo_list
  else .tool_call

/-- normalizeToolCallData of claude.ts: classification and block shape
only; the claude strategy records nothing, it keeps no toolCallsById
table at all. -/
def normalizeToolCallData (data : ToolData) : NormalizedBlock :=
  let toolName := (jsOrStr data.requestName (some "tool")).getD "tool"
  let blockType := mapToolNameToBlockType toolName
  let summary := if strTruthy data.status then toolName ++ " (" ++ data.status.getD "" ++ ")" else toolName
  let metadata : Metadata :=
    { toolName := some toolName, status := data.status, callId := data.requestCallId,
      input := data.input, output := data.output, error := data.error,
      elapsedSeconds := data.elapsedSeconds,
      command := if blockType = .command_execution then some toolName else none }
  .textLike blockType (if blockType = .tool_call then summary else "") (some metadata) false

/-- The claude strategy does not override handleArtifactUpdate: every
artifact update goes through the shared passthrough, with no
correlation. -/
def handleArtifactUpdate (ev : ArtifactEvent) : List NormalizedBlock :=
  commonHandleArtifactUpdate ev

end Claude

/-- Looking up a key just stored in the correlation table finds the
stored classification. -/
theorem ToolTable.get_set (t : ToolTable) (k : String) (v : ToolInfo) :
    (t.set k v).get k = some v := by
  simp [ToolTable.get, ToolTable.set, List.find?]

/-- C7 counterexample: the claude strategy keeps no correlation table.
A tool-call-update introduces call id c1 for the bash tool (classified
command_execution), yet the following artifact event tool-c1-output is
passed through as a plain artifact block: nothing is appended to the
recorded visual block and no block of the result is text-like, against
the claim that every strategy reuses recorded classifications. -/
theorem tool_output_correlation_counterexample :
    Claude.normalizeToolCallData
        { requestName := some "bash", requestCallId := some "c1",
          status := some "requested" }
      = .textLike .command_execution ""
          (some { toolName := some "bash", status := some "requested",
                  callId := some "c1", command := some "bash" }) false
      ∧ Claude.handleArtifactUpdate
          ⟨⟨"tool-c1-output", none, [.text "out"]⟩, false⟩
        = [.artifact ⟨"tool-c1-output", none, [.text "out"]⟩ false]
      ∧ (Claude.handleArtifactUpdate
          ⟨⟨"tool-c1-output", none, [.text "out"]⟩, false⟩).all
          (fun b => match b with | .artifact _ _ => true | _ => false) := by
  refine ⟨?_, rfl, rfl⟩
  decide

/-- C7 amended: the gemini and codex strategies record the (toolName,
blockType) classification of the first event carrying a call id in
their per-conversation toolCallsById table, and their artifact handlers
reuse a recorded command_execution classification for an artifact id of
the form tool-(id)-output with non-empty text by emitting an
append-to-command command block; for any other recorded type, gemini
correlates by callId with a generic tool_call block and codex falls
through to the artifact passthrough; the claude strategy keeps no table
and always passes artifact updates through unchanged. -/
theorem tool_output_correlation_amended
    (table : ToolTable) (data : ToolData) (ev : ArtifactEvent)
    (cid : String) (info : ToolInfo)
    (hparse : parseToolOutputId ev.artifact.artifactId = some cid)
    (htext : artifactTextParts ev.artifact.parts ≠ "")
    (hrec : table.get cid = some info) :
    (∀ name : String, data.requestCallId = some cid → cid ≠ "" →
        jsOrStr data.requestName (some "tool") = some name →
        ((Gemini.normalizeToolCallData data table).1.get cid
            = some ⟨name, Gemini.mapToolNameToBlockType name⟩
          ∧ (Codex.normalizeToolCallData data table).1.get cid
            = some ⟨name, Codex.mapToolNameToBlockType name⟩))
      ∧ (info.blockType = .command_execution →
          Gemini.handleArtifactUpdate table ev
            = [.textLike .command_execution (artifactTextParts ev.artifact.parts)
                (some { command := some info.toolName, callId := some cid }) true]
          ∧ Codex.handleArtifactUpdate table ev
            = [.textLike .command_execution (artifactTextParts ev.artifact.parts)
                (some { command := some info.toolName, callId := some cid }) true])
      ∧ (info.blockType ≠ .command_execution →
          Gemini.handleArtifactUpdate table ev
            = [.textLike .tool_call (artifactTextParts ev.artifact.parts)
                (some { toolName := some info.toolName, callId := some cid }) false]
          ∧ Codex.handleArtifactUpdate table ev = commonHandleArtifactUpdate ev)
      ∧ Claude.handleArtifactUpdate ev = commonHandleArtifactUpdate ev := by
  refine ⟨?_, ?_, ?_, rfl⟩
  · intro name hcid hne hname
    constructor
    · have htab : (Gemini.normalizeToolCallData data table).1
          = table.set cid ⟨name, Gemini.mapToolNameToBlockType name⟩ := by
        unfold Gemini.normalizeToolCallData
        simp only [hcid, hname, Option.getD_some]
        rw [if_pos hne]
      rw [htab]
      exact ToolTable.get_set table cid _
    · have htab : (Codex.normalizeToolCallData data table).1
          = table.set cid ⟨name, Codex.mapToolNameToBlockType name⟩ := by
        unfold Codex.normalizeToolCallData
        simp only [hcid, hname, Option.getD_some]
        rw [if_pos hne]
      rw [htab]
      exact ToolTable.get_set table cid _
  · intro hcmd
    constructor
    · unfold Gemini.handleArtifactUpdate
      rw [hparse]
      simp only [htext, if_true, hrec, hcmd, if_pos rfl]
      simp [htext]
    · unfold Codex.handleArtifactUpdate
      rw [hparse]
      simp only [htext, if_true, hrec, hcmd, if_pos rfl]
      simp [htext]
  · intro hcmd
    constructor
    · unfold Gemini.handleArtifactUpdate
      rw [hparse]
      simp only [hrec]
      simp [htext, hcmd]
    · unfold Codex.handleArtifactUpdate
      rw [hparse]
      simp only [hrec]
      simp [htext, hcmd]

/-- Witness for the amended C7 at a recorded bash command call. -/
theorem tool_output_correlation_amended_witness :
    (parseToolOutputId
        (ArtifactEvent.mk ⟨"tool-c1-output", none, [.text "out"]⟩ false).artifact.artifactId
      = some "c1"
      ∧ artifactTextParts
          (ArtifactEvent.mk ⟨"tool-c1-output", none, [.text "out"]⟩ false).artifact.parts ≠ ""
      ∧ ToolTable.get [("c1", ⟨"bash", .command_execution⟩)] "c1"
        = some ⟨"bash", .command_execution⟩)
      ∧ Claude.handleArtifactUpdate
          (ArtifactEvent.mk ⟨"tool-c1-output", none, [.text "out"]⟩ false)
        = commonHandleArtifactUpdate
          (ArtifactEvent.mk ⟨"tool-c1-output", none, [.text "out"]⟩ false) :=
  ⟨⟨by decide, by decide, by decide⟩,
    (tool_output_correlation_amended
      [("c1", ⟨"bash", .command_execution⟩)]
      { requestName := some "bash", requestCallId := some "c1" }
      (ArtifactEvent.mk ⟨"tool-c1-output", none, [.text "out"]⟩ false)
      "c1" ⟨"bash", .command_execution⟩
      (by decide) (by decide) (by decide)).2.2.2⟩

/-! ## Block accumulator (useChat.ts, applyNormalizedBlock and the
terminal-marking / stream-error recovery of sendMessage)

The fold is translated branch for branch from the source closure:
artifact correlate-by-artifactId, append-to-command, tool_call
correlate-by-callId, merge-into-streaming-last, create-new-block.
crypto.randomUUID of the source is modelled by an explicit freshId
argument. -/

/-- A renderer-facing accumulated block; an undefined isStreaming of the
source behaves exactly like false everywhere it is read, so the flag is
a plain Bool. -/
structure MessageBlock where
  id : String
  type : MessageBlockType
  content : String
  isStreaming : Bool
  metadata : Option Metadata
deriving DecidableEq, Repr

/-- A chat message with its accumulated ordered block list. -/
structure ChatMessage where
  id : String
  role : String
  content : String
  blocks : List MessageBlock
  timestamp : Nat
  isStreaming : Bool
deriving DecidableEq, Repr

/-- Whether a block is an artifact block carrying the given artifact id,
as tested by the artifact branch of the fold. -/
def isArtifactMatch (aid : String) (b : MessageBlock) : Bool :=
  b.type = .artifact
    ∧ (b.metadata.bind Metadata.artifact).map ArtifactPayload.artifactId = some aid

/-- Index of the last artifact block with the given artifact id: the
source maps blocks to (block, index), reverses, and takes the first
match. -/
def findLastArtifactIndex (blocks : List MessageBlock) (aid : String) : Option Nat :=
  (blocks.enum.reverse.find? (fun e => isArtifactMatch aid e.2)).map (fun e => e.1)

/-- Whether a block is a tool_call block whose metadata callId equals
the given one, as tested by the findIndex of the tool_call branch. -/
def toolCallMatch (cid : Option String) (b : MessageBlock) : Bool :=
  b.type = .tool_call ∧ (b.metadata.bind Metadata.callId) = cid

/-- The mergeDefined step of the tool_call branch: each listed key is
overwritten only when the incoming value is defined. -/
def mergeToolCallMetadata (base : Metadata) (callId : Option String)
    (m : Option Metadata) : Metadata :=
  { base with
    callId := mergeField callId base.callId,
    toolName := mergeField (m.bind Metadata.toolName) base.toolName,
    server := mergeField (m.bind Metadata.server) base.server,
    tool := mergeField (m.bind Metadata.tool) base.tool,
    arguments := mergeField (m.bind Metadata.arguments) base.arguments,
    result := mergeField (m.bind Metadata.result) base.result,
    input := mergeField (m.bind Metadata.input) base.input,
    output := mergeField (m.bind Metadata.output) base.output,
    error := mergeField (m.bind Metadata.error) base.error,
    status := mergeField (m.bind Metadata.status) base.status }

/-- The per-blockType metadata assembled when a new block is created. -/
def newBlockMetadata (blockType : MessageBlockType) (callId : Option String)
    (m : Option Metadata) : Metadata :=
  match blockType with
  | .command_execution =>
    { command := jsOrStr (m.bind Metadata.command) (m.bind Metadata.toolName),
      status := m.bind Metadata.status,
      exitCode := m.bind Metadata.exitCode }
  | .tool_call =>
    { callId := callId,
      toolName := m.bind Metadata.toolName,
      status := m.bind Metadata.status,
      server := m.bind Metadata.server,
      tool := m.bind Metadata.tool,
      arguments := m.bind Metadata.arguments,
      result := m.bind Metadata.result,
      input := m.bind Metadata.input,
      output := m.bind Metadata.output,
      error := m.bind Metadata.error }
  | .web_search => { query := m.bind Metadata.query }
  | .todo_list => { items := m.bind Metadata.items }
  | .file_change => { changes := m.bind Metadata.changes }
  | _ => {}

/-- The case-insensitive terminal-status test used when a new block is
created. -/
def isTerminalStatus (m : Option Metadata) : Bool :=
  match m.bind Metadata.status with
  | some s => toLowerStr s ∈ ["completed", "failed", "succeeded", "error"]
  | none => false

/-- Block types treated as tool blocks for the initial streaming flag. -/
def isToolBlock (bt : MessageBlockType) : Bool :=
  bt = .tool_call ∨ bt = .web_search ∨ bt = .file_change ∨ bt = .todo_list

/-- Whether a fresh block is created for this normalized block. -/
def shouldCreateBlock (deltaText : String) (bt : MessageBlockType) : Bool :=
  deltaText.length > 0 ∨ bt = .command_execution ∨ bt = .file_change
    ∨ bt = .todo_list ∨ bt = .web_search ∨ bt = .tool_call ∨ bt = .error

/-- The new block pushed by the create branch. -/
def newBlock (freshId : String) (blockType : MessageBlockType)
    (deltaText : String) (metadata : Option Metadata) : MessageBlock :=
  let callId := metadata.bind Metadata.callId
  let blockMetadata := newBlockMetadata blockType callId metadata
  { id := freshId, type := blockType, content := deltaText,
    isStreaming := if isToolBlock blockType then !(isTerminalStatus metadata) else true,
    metadata := if blockMetadata.isEmpty then none else some blockMetadata }

/-- The merge-into-streaming-last / create-new-block tail of the fold. -/
def appendOrCreate (freshId : String) (blockType : MessageBlockType)
    (deltaText : String) (metadata : Option Metadata) (msg : ChatMessage) : ChatMessage :=
  let blocks := msg.blocks
  let lastBlockIndex := blocks.length - 1
  match blocks.getLast? with
  | some lb =>
    if lb.type = blockType ∧ lb.isStreaming then
      let updated := { lb with content := lb.content ++ deltaText }
      { msg with blocks := blocks.set lastBlockIndex updated }
    else if shouldCreateBlock deltaText blockType then
      let blocks1 :=
        if lb.isStreaming then blocks.set lastBlockIndex ({ lb with isStreaming := false })
        else blocks
      { msg with blocks := blocks1 ++ [newBlock freshId blockType deltaText metadata] }
    else { msg with blocks := blocks }
  | none =>
    if shouldCreateBlock deltaText blockType then
      { msg with blocks := blocks ++ [newBlock freshId blockType deltaText metadata] }
    else { msg with blocks := blocks }

/-- The text-like tail of the fold: tool_call correlation by callId,
then merge-or-create. -/
def applyTextLike (freshId : String) (blockType : MessageBlockType)
    (deltaText : String) (metadata : Option Metadata) (msg : ChatMessage) : ChatMessage :=
  let callId := metadata.bind Metadata.callId
  if blockType = .tool_call ∧ strTruthy callId then
    match msg.blocks.findIdx? (toolCallMatch callId) with
    | some i =>
      match msg.blocks[i]? with
      | some existingBlock =>
        let updated : MessageBlock :=
          { existingBlock with
            content := if deltaText.length > 0 then deltaText else existingBlock.content,
            metadata := some (mergeToolCallMetadata
              (existingBlock.metadata.getD emptyMetadata) callId metadata),
            isStreaming :=
              if (metadata.bind Metadata.status) = some "completed"
                  ∨ (metadata.bind Metadata.status) = some "failed"
              then false else existingBlock.isStreaming }
        { msg with blocks := msg.blocks.set i updated }
      | none => appendOrCreate freshId blockType deltaText metadata msg
    | none => appendOrCreate freshId blockType deltaText metadata msg
  else appendOrCreate freshId blockType deltaText metadata msg

/-- One application of the fold to the matched assistant message,
translated branch for branch from the applyNormalizedBlock closure. -/
def applyNormalizedBlock (freshId : String) (normalized : NormalizedBlock)
    (msg : ChatMessage) : ChatMessage :=
  match normalized with
  | .artifact art app =>
    let blocks := msg.blocks
    match app, findLastArtifactIndex blocks art.artifactId with
    | true, some i =>
      match blocks[i]? with
      | some existingBlock =>
        let existingArtifact := existingBlock.metadata.bind Metadata.artifact
        let mergedParts :=
          match existingArtifact with
          | some ea => ea.parts ++ art.parts
          | none => art.parts
        let mergedMeta : Metadata :=
          { (existingBlock.metadata.getD emptyMetadata) with
            artifact := some ⟨art.artifactId, art.name, mergedParts⟩ }
        let updated : MessageBlock := { existingBlock with metadata := some mergedMeta }
        { msg with blocks := blocks.set i updated }
      | none => msg
    | _, _ =>
      let pushed : MessageBlock :=
        { id := freshId, type := .artifact, content := "", isStreaming := false,
          metadata := some { emptyMetadata with artifact := some art } }
      { msg with blocks := blocks ++ [pushed] }
  | .textLike blockType deltaText metadata appendToCommand =>
    match appendToCommand, msg.blocks.getLast? with
    | true, some lb =>
      if lb.type = .command_execution then
        let base := lb.metadata.getD emptyMetadata
        let um1 :=
          if strTruthy (metadata.bind Metadata.status)
          then { base with status := metadata.bind Metadata.status } else base
        let um2 :=
          if (metadata.bind Metadata.exitCode).isSome
          then { um1 with exitCode := metadata.bind Metadata.exitCode } else um1
        let updated := { lb with content := lb.content ++ deltaText, metadata := some um2 }
        { msg with blocks := msg.blocks.set (msg.blocks.length - 1) updated }
      else applyTextLike freshId blockType deltaText metadata msg
    | _, _ => applyTextLike freshId blockType deltaText metadata msg

/-- The fold over the conversation message list: only the message whose
id equals the assistant message id of the current turn is touched. -/
def applyNormalizedBlockToMessages (assistantMessageId freshId : String)
    (normalized : NormalizedBlock) (messages : List ChatMessage) : List ChatMessage :=
  messages.map fun msg =>
    if msg.id ≠ assistantMessageId then msg
    else applyNormalizedBlock freshId normalized msg

/-- End-of-stream terminal marking of sendMessage: the assistant message
and all its blocks stop streaming. -/
def markTerminal (assistantMessageId : String) (messages : List ChatMessage) :
    List ChatMessage :=
  messages.map fun msg =>
    if msg.id ≠ assistantMessageId then msg
    else
      let stopped := msg.blocks.map (fun b => { b with isStreaming := false })
      { msg with isStreaming := false, blocks := stopped }

/-- The catch branch of sendMessage on stream transport failure: stop
streaming the assistant message and all its blocks, and append one
synthetic block reporting the error. -/
def streamErrorRecovery (assistantMessageId freshId err : String)
    (messages : List ChatMessage) : List ChatMessage :=
  messages.map fun msg =>
    if msg.id ≠ assistantMessageId then msg
    else
      let stopped := msg.blocks.map (fun b => { b with isStreaming := false })
      let errBlock : MessageBlock :=
        { id := freshId, type := .text, content := "Error: " ++ err,
          isStreaming := false, metadata := none }
      { msg with isStreaming := false, blocks := stopped ++ [errBlock] }

/-- A streaming tool_call block awaiting its result, used as a concrete
accumulated state. -/
def sampleToolBlock : MessageBlock :=
  { id := "b1", type := .tool_call, content := "", isStreaming := true,
    metadata := some { callId := some "c1", toolName := some "search",
                       status := some "requested" } }

/-- An in-progress assistant message holding sampleToolBlock. -/
def sampleToolMsg : ChatMessage :=
  { id := "m1", role := "assistant", content := "", blocks := [sampleToolBlock],
    timestamp := 0, isStreaming := true }

/-- An assistant message in terminal state: not streaming, and its one
block not streaming. -/
def doneMsg : ChatMessage :=
  { id := "m1", role := "assistant", content := "",
    blocks := [{ id := "b1", type := .text, content := "hello",
                 isStreaming := false, metadata := none }],
    timestamp := 0, isStreaming := false }

/-- C3: on an empty block list, a requested tool_call for callId c1
followed by its completion with result x folds to exactly one tool_call
block with callId c1, final status completed and the merged result x --
never two blocks. -/
theorem tool_call_merge_scenario :
    (applyNormalizedBlock "id2"
        (.textLike .tool_call ""
          (some { callId := some "c1", status := some "completed",
                  result := some "x" }) false)
        (applyNormalizedBlock "id1"
          (.textLike .tool_call ""
            (some { callId := some "c1", toolName := some "search",
                    status := some "requested" }) false)
          { id := "m1", role := "assistant", content := "", blocks := [],
            timestamp := 0, isStreaming := true })).blocks
      = [{ id := "id1", type := .tool_call, content := "",
           isStreaming := false,
           metadata := some { callId := some "c1", toolName := some "search",
                              status := some "completed",
                              result := some "x" } }] := by
  decide

/-- C4 counterexample: an update carrying status succeeded (a terminal
value of the claim, which also demands case-insensitive comparison) is
merged into the existing streaming tool_call block, yet the block stays
streaming: the merge path only clears the flag on the case-sensitive
literals completed and failed. -/
theorem terminal_status_case_counterexample :
    ((applyNormalizedBlock "fresh"
        (.textLike .tool_call ""
          (some { callId := some "c1", status := some "succeeded" }) false)
        sampleToolMsg).blocks.map
          (fun b => (b.isStreaming, b.metadata.bind Metadata.status)))
      = [(true, some "succeeded")] := by
  decide

/-- The block produced by the in-place tool_call merge branch. -/
def mergedToolCallBlock (txt : String) (md : Metadata) (c : String)
    (existingBlock : MessageBlock) : MessageBlock :=
  { existingBlock with
    content := if txt.length > 0 then txt else existingBlock.content,
    metadata := some (mergeToolCallMetadata
      (existingBlock.metadata.getD emptyMetadata) (some c) (some md)),
    isStreaming :=
      if md.status = some "completed" ∨ md.status = some "failed"
      then false else existingBlock.isStreaming }

/-- C4 amended: an incoming tool_call block with a non-empty callId that
matches an existing tool_call block anywhere in the sequence (the first
match of findIndex) is merged into that block in place; the block stops
streaming exactly when the incoming status is the case-sensitive literal
completed or failed, and keeps its previous streaming flag on any other
status, including succeeded, error and other casings. -/
theorem tool_call_merge_in_place
    (freshId txt : String) (md : Metadata) (msg : ChatMessage)
    (c : String) (i : Nat) (existingBlock : MessageBlock)
    (hc : md.callId = some c) (hne : c ≠ "")
    (hfind : msg.blocks.findIdx? (toolCallMatch (some c)) = some i)
    (hget : msg.blocks[i]? = some existingBlock) :
    applyNormalizedBlock freshId (.textLike .tool_call txt (some md) false) msg
      = { msg with blocks := msg.blocks.set i (mergedToolCallBlock txt md c existingBlock) } := by
  show applyTextLike freshId .tool_call txt (some md) msg = _
  unfold applyTextLike
  simp only [Option.some_bind, hc]
  rw [if_pos (by simp [strTruthy, hne])]
  simp only [hfind, hget]
  rfl

/-- Witness for the amended C4: a succeeded update merges in place and
leaves the block streaming. -/
theorem tool_call_merge_in_place_witness :
    ((Metadata.callId { callId := some "c1", status := some "succeeded" } = some "c1")
      ∧ "c1" ≠ ""
      ∧ sampleToolMsg.blocks.findIdx? (toolCallMatch (some "c1")) = some 0
      ∧ sampleToolMsg.blocks[0]? = some sampleToolBlock)
      ∧ applyNormalizedBlock "fresh"
          (.textLike .tool_call ""
            (some { callId := some "c1", status := some "succeeded" }) false)
          sampleToolMsg
        = { sampleToolMsg with blocks := sampleToolMsg.blocks.set 0 (mergedToolCallBlock "" { callId := some "c1", status := some "succeeded" } "c1" sampleToolBlock) } :=
  ⟨⟨by decide, by decide, by decide, by decide⟩,
    tool_call_merge_in_place "fresh" "" _ sampleToolMsg "c1" 0 sampleToolBlock
      (by decide) (by decide) (by decide) (by decide)⟩

/-- The synthetic block reporting a stream transport failure. -/
def errorBlock (freshId err : String) : MessageBlock :=
  ⟨freshId, .text, "Error: " ++ err, false, none⟩

/-- The terminal shape the catch branch gives the assistant message. -/
def failTerminal (freshId err : String) (msg : ChatMessage) : ChatMessage :=
  let stopped := msg.blocks.map (fun b => { b with isStreaming := false })
  { msg with isStreaming := false, blocks := stopped ++ [errorBlock freshId err] }

/-- C5: on stream transport failure the in-progress assistant message is
forced terminal with exactly one synthetic block appended reporting the
error: the message stops streaming, every block stops streaming, the
block count grows by exactly one, and the appended last block carries
the error text. -/
theorem stream_failure_forces_terminal
    (assistantMessageId freshId err : String) (msgs : List ChatMessage)
    (i : Nat) (msg : ChatMessage)
    (hi : msgs[i]? = some msg) (hid : msg.id = assistantMessageId) :
    ∃ msg2, (streamErrorRecovery assistantMessageId freshId err msgs)[i]? = some msg2
      ∧ msg2.isStreaming = false
      ∧ msg2.blocks.length = msg.blocks.length + 1
      ∧ (∀ b ∈ msg2.blocks, b.isStreaming = false)
      ∧ msg2.blocks.getLast?
        = some ⟨freshId, .text, "Error: " ++ err, false, none⟩ := by
  have happ : (streamErrorRecovery assistantMessageId freshId err msgs)[i]?
      = some (failTerminal freshId err msg) := by
    unfold streamErrorRecovery
    rw [List.getElem?_map, hi, Option.map_some']
    congr 1
    rw [if_neg (by simp [hid])]
    rfl
  refine ⟨_, happ, rfl, ?_, ?_, ?_⟩
  · show (failTerminal freshId err msg).blocks.length = msg.blocks.length + 1
    unfold failTerminal
    simp
  · intro b hb
    replace hb : b ∈ msg.blocks.map (fun b => { b with isStreaming := false })
        ++ [errorBlock freshId err] := hb
    rcases List.mem_append.mp hb with h | h
    · obtain ⟨x, _, rfl⟩ := List.mem_map.mp h
      rfl
    · simp only [List.mem_singleton] at h
      rw [h]
      rfl
  · show (failTerminal freshId err msg).blocks.getLast?
      = some ⟨freshId, .text, "Error: " ++ err, false, none⟩
    unfold failTerminal
    exact List.getLast?_concat _

/-- Witness for C5 at a one-message conversation. -/
theorem stream_failure_forces_terminal_witness :
    ([sampleToolMsg][0]? = some sampleToolMsg ∧ sampleToolMsg.id = "m1")
      ∧ ∃ msg2, (streamErrorRecovery "m1" "e1" "net down" [sampleToolMsg])[0]? = some msg2
          ∧ msg2.isStreaming = false
          ∧ msg2.blocks.length = sampleToolMsg.blocks.length + 1
          ∧ (∀ b ∈ msg2.blocks, b.isStreaming = false)
          ∧ msg2.blocks.getLast?
            = some ⟨"e1", .text, "Error: " ++ "net down", false, none⟩ :=
  ⟨⟨by decide, by decide⟩,
    stream_failure_forces_terminal "m1" "e1" "net down" [sampleToolMsg] 0 sampleToolMsg
      (by decide) (by decide)⟩

/-- C6 counterexample: the fold has no terminal-state guard.  Applying a
further text block with non-empty delta to a message already in terminal
state (message and all blocks not streaming) appends a new block: the
block list is not left unchanged. -/
theorem terminal_not_idempotent_counterexample :
    (applyNormalizedBlock "fresh" (.textLike .text "x" none false) doneMsg).blocks.length = 2
      ∧ applyNormalizedBlock "fresh" (.textLike .text "x" none false) doneMsg ≠ doneMsg := by
  decide

/-- C6 amended: applying a further normalized block to a terminal
message is a no-op only when the block produces nothing: a text or
reasoning block with empty delta text and no append-to-command flag
leaves the message identical; blocks with content or of block-creating
types still append to the frozen message. -/
theorem terminal_noop_for_empty_delta (freshId : String) (bt : MessageBlockType)
    (md : Option Metadata) (msg : ChatMessage)
    (_hmsg : msg.isStreaming = false)
    (hblocks : ∀ b ∈ msg.blocks, b.isStreaming = false)
    (hbt : bt = .text ∨ bt = .reasoning) :
    applyNormalizedBlock freshId (.textLike bt "" md false) msg = msg := by
  show applyTextLike freshId bt "" md msg = msg
  unfold applyTextLike
  rw [if_neg (by rcases hbt with h | h <;> simp [h])]
  unfold appendOrCreate
  rcases hl : msg.blocks.getLast? with _ | lb
  · simp only [hl]
    rw [if_neg (by rcases hbt with h | h <;> simp [h, shouldCreateBlock])]
  · have hlb : lb.isStreaming = false := hblocks lb (List.mem_of_mem_getLast? hl)
    simp only [hl]
    rw [if_neg (by simp [hlb])]
    rw [if_neg (by rcases hbt with h | h <;> simp [h, shouldCreateBlock])]

/-- Witness for the amended C6: an empty text delta leaves the terminal
message unchanged. -/
theorem terminal_noop_for_empty_delta_witness :
    (doneMsg.isStreaming = false
      ∧ (∀ b ∈ doneMsg.blocks, b.isStreaming = false)
      ∧ (MessageBlockType.text = MessageBlockType.text
          ∨ MessageBlockType.text = MessageBlockType.reasoning))
      ∧ applyNormalizedBlock "fresh" (.textLike .text "" none false) doneMsg = doneMsg :=
  ⟨⟨by decide, by decide, Or.inl rfl⟩,
    terminal_noop_for_empty_delta "fresh" .text none doneMsg
      (by decide) (by decide) (Or.inl rfl)⟩

/-- C9: the fold touches only the assistant message of the current turn:
the message list keeps its length and every message whose id differs
from the assistant message id is returned unchanged, whatever the
normalized block is. -/
theorem apply_frame_effect
    (assistantMessageId freshId : String) (normalized : NormalizedBlock)
    (messages : List ChatMessage) (i : Nat) (msg : ChatMessage)
    (hi : messages[i]? = some msg) (hneq : msg.id ≠ assistantMessageId) :
    (applyNormalizedBlockToMessages assistantMessageId freshId normalized messages).length
        = messages.length
      ∧ (applyNormalizedBlockToMessages assistantMessageId freshId normalized messages)[i]?
        = some msg := by
  unfold applyNormalizedBlockToMessages
  refine ⟨List.length_map _ _, ?_⟩
  rw [List.getElem?_map, hi]
  simp [hneq]

/-- Witness for C9: a message of another turn survives unchanged. -/
theorem apply_frame_effect_witness :
    ([doneMsg][0]? = some doneMsg ∧ doneMsg.id ≠ "other-turn")
      ∧ (applyNormalizedBlockToMessages "other-turn" "fresh"
            (.textLike .text "x" none false) [doneMsg]).length = 1
      ∧ (applyNormalizedBlockToMessages "other-turn" "fresh"
            (.textLike .text "x" none false) [doneMsg])[0]? = some doneMsg :=
  ⟨⟨by decide, by decide⟩,
    apply_frame_effect "other-turn" "fresh" (.textLike .text "x" none false)
      [doneMsg] 0 doneMsg (by decide) (by decide)⟩

end Conflux
